import Mathlib

/-!
Shallow embedding of the IC-Test-Fixture test-script compiler
(`python_src/parser.py`) and the voltage-to-logic classification model
(`python_src/testvector.py`).

Modelling conventions:
* Python numbers (int / float) are embedded as `Int` / `ℚ`; the floating
  literals appearing in the claims (0.3, 3.4, 0.21, ...) are far from any
  comparison tie, so exact rationals are a faithful model of the float
  comparisons performed by the code.
* Python dynamically typed values flowing through the YAML document are
  embedded as the inductive `PVal` (int / float / str); `TypeError`s the
  interpreter would raise on ill-typed operations are modelled as the
  explicit error `Err.typeErr`.
* Exceptions are modelled with `Except Err`; each distinct raise site of
  the source gets its own `Err` constructor (the spec's error taxonomy is
  by kind, not by concrete Python class).
* Python dicts are modelled as association lists (first-match lookup);
  theorems that depend on dict-key uniqueness carry `Nodup` hypotheses.
-/

/-- Dynamically typed scalar value of the Python/YAML data model:
an int, a float (exact rational model), or a string. -/
inductive PVal where
  | pInt (n : Int)
  | pFlt (q : ℚ)
  | pStr (s : String)
deriving DecidableEq, Repr

/-- Value stored in a compiled command / classification result:
Python int, str, or None (`pyNone` models the `None` placeholder used
while a truth-table column is being filled). -/
inductive Val where
  | i (n : Int)
  | s (str : String)
  | pyNone
deriving DecidableEq, Repr

/-- Encoding kind of a compiled I/O line: `LogicMapping` enum of
`testvector.py` (single / map / truth_table). -/
inductive LogicMapping where
  | single
  | map
  | truth_table
deriving DecidableEq, Repr

/-- Error kinds, one per raise site of the source (plus `typeErr` for the
`TypeError`s the Python interpreter itself raises on ill-typed operations,
and `keyErr` for dict `KeyError`s). -/
inductive Err where
  | typeErr
  | keyErr
  | missingKeys
  | pinRange
  | powerPinConflict
  | vccGndSame
  | unsupportedVoltage
  | thresholdOrder
  | clockFormat
  | clockRange
  | indexErr
  | columnCount
  | columnName
  | reservedIdentifier
  | invalidLogic
  | unresolvedPin
  | onlyOneInt
  | intLiteral
  | floatLiteral
  | intOverflow
  | mixTT
  | cardMismatch
  | parseError (path : String)
deriving DecidableEq, Repr

/-- INPUT_LOGIC of parser.py. -/
def INPUT_LOGIC : List String := ["H", "L", "R_CLK", "F_CLK", "X"]

/-- OUTPUT_LOGIC of parser.py. -/
def OUTPUT_LOGIC : List String := ["H", "L", "Z", "X", "S", "T", "Q_0"]

/-- TRUTH_TABLE_LOGIC = INPUT_LOGIC | OUTPUT_LOGIC of parser.py
(set union; listed without duplicates). -/
def TRUTH_TABLE_LOGIC : List String :=
  ["H", "L", "R_CLK", "F_CLK", "X", "Z", "S", "T", "Q_0"]

/-- SUPPORTED_VOLTAGES of parser.py. -/
def SUPPORTED_VOLTAGES : List String :=
  ["0V", "1.8V", "2.5V", "3.3V", "4V", "4.5V", "5V"]

/-- MAX_PINS of parser.py. -/
def MAX_PINS : Int := 20

/-- Numeric view of a `PVal`: ints and floats are numbers, strings are not.
Used to model Python arithmetic comparisons (which `TypeError` on
str-vs-number). -/
def pvToQ : PVal → Option ℚ
  | .pInt n => some (n : ℚ)
  | .pFlt q => some q
  | .pStr _ => none

/-- Python truthiness of a scalar: 0, 0.0 and the empty string are falsy. -/
def pvTruthy : PVal → Bool
  | .pInt n => n ≠ 0
  | .pFlt q => q ≠ 0
  | .pStr s => s ≠ ""

/-- Python truthiness of an optional value (`None` is falsy). -/
def pvTruthyO : Option PVal → Bool
  | none => false
  | some v => pvTruthy v

/-! ## testvector.py: classification and drive-voltage model -/

/-- TestVector.logic_from_thld of testvector.py: classify a measured ADC
voltage against the script's Output High / Output Low thresholds.  The
class attributes `global_params["Output High"]` / `["Output Low"]` are
passed explicitly. -/
def logic_from_thld (outLow outHigh : ℚ) (adc_val : ℚ) (isInt : Bool) : Val :=
  if adc_val ≥ outHigh then (if isInt then .i 1 else .s "H")
  else if adc_val ≤ outLow then (if isInt then .i 0 else .s "L")
  else .s "U"

/-- TestVector.get_voltage of testvector.py: expected drive voltage for a
stimulus logic value.  The source tests `logic` for membership of the
Python set holding the int 0 and the strings "L" and "X"; the class
attribute `global_params["VCC Voltage"]` is passed explicitly as `vcc`. -/
def get_voltage (vcc : String) (logic : Val) (volt_type : Option String) : Val :=
  if logic = .i 0 ∨ logic = .s "L" ∨ logic = .s "X" then .i 0
  else match volt_type with
    | some v => .s v
    | none => .s vcc

/-- TestVector.get_pin of testvector.py: an int pin reference is returned
directly, a name is looked up in the shared pin map (Python `KeyError` on
a missing name). -/
def get_pin (pin_map : List (String × Int)) : Int ⊕ String → Except Err Int
  | .inl n => .ok n
  | .inr name =>
    match pin_map.find? (fun kv => kv.1 = name) with
    | some kv => .ok kv.2
    | none => .error .keyErr

/-! ## Claims C4, C8, C10: classification and drive voltage -/

/-- C4: with validated thresholds (Output Low < Output High), classification
returns the High symbol for measurements at or above Output High, the Low
symbol at or below Output Low, and "U" strictly between; in particular with
Output Low = 0.3 and Output High = 3.4, classify(0.21) = "L",
classify(4.2) = "H" and classify(2.5) = "U". -/
theorem classify_thresholds (outLow outHigh m : ℚ) (h : outLow < outHigh) :
    (outHigh ≤ m → logic_from_thld outLow outHigh m false = .s "H") ∧
    (m ≤ outLow → logic_from_thld outLow outHigh m false = .s "L") ∧
    (outLow < m → m < outHigh → logic_from_thld outLow outHigh m false = .s "U") ∧
    logic_from_thld (3/10) (17/5) (21/100) false = .s "L" ∧
    logic_from_thld (3/10) (17/5) (21/5) false = .s "H" ∧
    logic_from_thld (3/10) (17/5) (5/2) false = .s "U" := by
  refine ⟨?_, ?_, ?_, ?_, ?_, ?_⟩
  · intro hm
    simp only [logic_from_thld, ge_iff_le, if_pos hm]
    rfl
  · intro hm
    have h1 : ¬ outHigh ≤ m := by linarith
    simp only [logic_from_thld, ge_iff_le, if_neg h1, if_pos hm]
    rfl
  · intro h1 h2
    have h3 : ¬ outHigh ≤ m := by linarith
    have h4 : ¬ m ≤ outLow := by linarith
    simp only [logic_from_thld, ge_iff_le, if_neg h3, if_neg h4]
  · norm_num [logic_from_thld]
  · norm_num [logic_from_thld]
  · norm_num [logic_from_thld]

theorem classify_thresholds_witness :
    ((3 : ℚ)/10 < 17/5) ∧ logic_from_thld (3/10) (17/5) (21/100) false = .s "L" :=
  ⟨by norm_num, (classify_thresholds (3/10) (17/5) (21/100) (by norm_num)).2.2.2.1⟩

/-- C10: for a measurement strictly between the thresholds the classifier
returns the string "U" even when integer results are requested; the integer
classifications 1 and 0 occur exactly on the High band (measurement at or
above Output High) and the Low band (below High, at or below Output Low). -/
theorem classify_isInt_undefined (outLow outHigh m : ℚ) :
    (outLow < m → m < outHigh → logic_from_thld outLow outHigh m true = .s "U") ∧
    (logic_from_thld outLow outHigh m true = .i 1 ↔ outHigh ≤ m) ∧
    (logic_from_thld outLow outHigh m true = .i 0 ↔ ¬ outHigh ≤ m ∧ m ≤ outLow) := by
  refine ⟨?_, ?_, ?_⟩
  · intro h1 h2
    have h3 : ¬ outHigh ≤ m := by linarith
    have h4 : ¬ m ≤ outLow := by linarith
    simp only [logic_from_thld, ge_iff_le, if_neg h3, if_neg h4]
  · unfold logic_from_thld
    split
    · simp_all [ge_iff_le]
    · split <;> simp_all [ge_iff_le]
  · unfold logic_from_thld
    split
    · simp_all [ge_iff_le]
    · split <;> simp_all [ge_iff_le]

theorem classify_isInt_undefined_witness :
    logic_from_thld (3/10) (17/5) (5/2) true = .s "U" :=
  (classify_isInt_undefined (3/10) (17/5) (5/2)).1 (by norm_num) (by norm_num)

/-- C8: a stimulus logic value that is the int 0 or one of the symbols "L"
and "X" is driven at 0 V; any other value is driven at the per-line voltage
override when one is present, and at the script VCC Voltage otherwise. -/
theorem drive_voltage_contract (vcc : String) (logic : Val) (volt : Option String) :
    ((logic = .i 0 ∨ logic = .s "L" ∨ logic = .s "X") →
      get_voltage vcc logic volt = .i 0) ∧
    (¬ (logic = .i 0 ∨ logic = .s "L" ∨ logic = .s "X") →
      get_voltage vcc logic volt = .s (volt.getD vcc)) := by
  constructor
  · intro hm
    simp only [get_voltage, if_pos hm]
  · intro hm
    cases volt <;> simp only [get_voltage, if_neg hm, Option.getD]

theorem drive_voltage_contract_witness :
    get_voltage "5V" (.s "X") (some "3.3V") = .i 0 ∧
    get_voltage "5V" (.s "H") (some "3.3V") = .s "3.3V" ∧
    get_voltage "5V" (.i 1) none = .s "5V" :=
  ⟨(drive_voltage_contract "5V" (.s "X") (some "3.3V")).1 (by simp),
   (drive_voltage_contract "5V" (.s "H") (some "3.3V")).2 (by simp),
   (drive_voltage_contract "5V" (.i 1) none).2 (by simp)⟩

/-! ## String utilities modelling the Python primitives used by parser.py -/

/-- Python str.isdigit restricted to ASCII: nonempty and all characters
decimal digits. -/
def isPyDigits (s : String) : Bool := s.data ≠ [] && s.data.all Char.isDigit

/-- Python s.startswith("0b"). -/
def startsWith0b (s : String) : Bool :=
  match s.data with
  | '0' :: 'b' :: _ => true
  | _ => false

/-- Integer-token test of parse_test_io line 318:
`pin_val.startswith("0b") or pin_val.isdigit()`. -/
def isIntTok (s : String) : Bool := startsWith0b s || isPyDigits s

/-- Value of a decimal digit string. -/
def digitsToNat (cs : List Char) : Nat :=
  cs.foldl (fun n c => 10 * n + (c.toNat - 48)) 0

/-- Value of a binary digit string. -/
def binDigitsToNat (cs : List Char) : Nat :=
  cs.foldl (fun n c => 2 * n + (c.toNat - 48)) 0

/-- Python int(s) for digit-only strings (base 10, leading zeros legal). -/
def strToNat (s : String) : Nat := digitsToNat s.data

/-- Python int(s, 0): auto-detected base.  Only the shapes reachable from
parse_test_io are modelled ("0b"-prefixed binary literals and unsigned
decimal literals; digit-group underscores are not modelled).  A decimal
literal with a leading zero is a ValueError (none) unless it is all
zeros. -/
def parsePyInt0 (s : String) : Option Nat :=
  match s.data with
  | '0' :: 'b' :: rest =>
    if rest ≠ [] ∧ rest.all (fun c => c = '0' || c = '1') then
      some (binDigitsToNat rest)
    else none
  | cs =>
    if cs ≠ [] ∧ cs.all Char.isDigit ∧ (cs.head? ≠ some '0' ∨ cs.all (fun c => c = '0')) then
      some (digitsToNat cs)
    else none

/-- Worker for `splitChar`. -/
def splitCharAux (sep : Char) : List Char → List Char → List String
  | [], acc => [String.mk acc.reverse]
  | c :: rest, acc =>
    if c = sep then String.mk acc.reverse :: splitCharAux sep rest []
    else splitCharAux sep rest (c :: acc)

/-- Python s.split(sep) for a one-character separator: split at every
occurrence, keeping empty pieces; always returns a nonempty list. -/
def splitChar (sep : Char) (s : String) : List String := splitCharAux sep s.data []

/-! ## parse_test_io of parser.py (the per-line I/O compiler) -/

/-- Pin reference as written in an I/O line key: a Python int key stands
for itself; a string key is comma-split into named components. -/
inductive PinName where
  | pi (n : Int)
  | ps (s : String)
deriving DecidableEq, Repr

/-- Key of an entry of an Inputs/Outputs mapping (Python int or str key;
check_type at line 282 rejects anything else, so the embedding fixes the
two legal shapes). -/
inductive IOKey where
  | kInt (n : Int)
  | kStr (s : String)
deriving DecidableEq, Repr

/-- Declared pin list of an I/O line (parse_test_io line 283). -/
def pinNamesOf : IOKey → List PinName
  | .kInt n => [.pi n]
  | .kStr s => (splitChar ',' s).map .ps

/-- Raw pin map as handed to parse_tests / parse_test_io: the Pin Map
section's dict, keys and values still dynamically typed. -/
abbrev PinMapRaw := List (PVal × PVal)

/-- Compiled truth table: column identifier to the ordered list of its
cells (a cell is None until its row has been processed). -/
abbrev TT := List (String × List (Option String))

/-- Python membership/lookup `pin_name in pin_map` with a string name:
only string keys can compare equal. -/
def pinMapLookup (pm : PinMapRaw) (name : String) : Option PVal :=
  (pm.find? (fun kv => kv.1 == PVal.pStr name)).map (fun kv => kv.2)

/-- Truth-table dict lookup by token. -/
def ttLookup (tt : TT) (key : String) : Option (List (Option String)) :=
  (tt.find? (fun kv => kv.1 == key)).map (fun kv => kv.2)

/-- check_pin of parser.py applied to a dynamically typed value: the
comparison `0 < pin <= MAX_PINS` is a TypeError on a string and a
range error (ValueError) outside 1..20. -/
def checkPinPV (v : PVal) : Except Err Unit :=
  match pvToQ v with
  | none => .error .typeErr
  | some q => if 0 < q ∧ q ≤ (MAX_PINS : ℚ) then .ok () else .error .pinRange

/-- Pin resolution of parse_test_io lines 284-296: an int component stands
for itself, a digit-only string is int()-converted, any other string is
looked up in the pin map; an unknown name (or absent pin map) raises. -/
def resolvePinName (pinMap : Option PinMapRaw) : PinName → Except Err PVal
  | .pi n => .ok (.pInt n)
  | .ps s =>
    if isPyDigits s then .ok (.pInt (strToNat s))
    else
      match pinMap with
      | some pm =>
        match pinMapLookup pm s with
        | some v => .ok v
        | none => .error .unresolvedPin
      | none => .error .unresolvedPin

/-- The pin-name loop of parse_test_io lines 284-298: resolve each declared
component and range-check it; the resolved values are discarded. -/
def validatePins (pinMap : Option PinMapRaw) : List PinName → Except Err Unit
  | [] => .ok ()
  | p :: rest =>
    match resolvePinName pinMap p with
    | .error e => .error e
    | .ok v =>
      match checkPinPV v with
      | .error e => .error e
      | .ok () => validatePins pinMap rest

/-- check_type(io[pins], (str, int)) of parse_test_io line 301. -/
def checkTypeStrInt (v : PVal) : Except Err Unit :=
  match v with
  | .pFlt _ => .error .typeErr
  | _ => .ok ()

/-- Python str() of an I/O line value (line 302).  Reached only after
`checkTypeStrInt`, so the float branch is dead. -/
def pvToStr : PVal → String
  | .pInt n => toString n
  | .pStr s => s
  | .pFlt _ => ""

/-- Value-expression split of parse_test_io lines 304-306: the raw command
splits on single spaces; the first piece comma-splits into value tokens;
the last piece is the voltage override when there are two or more
pieces. -/
def splitValue (s : String) : List String × Option String :=
  let cmd := splitChar ' ' s
  (splitChar ',' (cmd.headD ""),
   if cmd.length ≥ 2 then some (cmd.getLastD "") else none)

/-- Voltage-override validation of parse_test_io lines 308-312. -/
def checkVoltage : Option String → Except Err Unit
  | none => .ok ()
  | some v =>
    if SUPPORTED_VOLTAGES.contains v then .ok () else .error .unsupportedVoltage

/-- Truth-table cells flow into the parsed value list as Python strings
(or the None placeholder, which a successful table parse never leaves
behind). -/
def cellToVal : Option String → Val
  | some s => .s s
  | none => .pyNone

/-- The logic-symbol branch of the token loop (lines 341-348): the token
must belong to the applicable logic vocabulary; its kind contribution is
None (neutral). -/
def pvElse (valid : List String) (st : List Val × Option LogicMapping) (tok : String) :
    Except Err (List Val × Option LogicMapping) :=
  if ¬ valid.contains tok then .error .invalidLogic
  else .ok (st.1 ++ [Val.s tok], none)

/-- One iteration of the value-token loop of parse_test_io lines 316-357:
classify the token (integer literal, truth-table identifier, or logic
symbol), extend the parsed values, then merge the token's kind with the
line's current kind; a mix in which exactly one side is truth_table
raises (only when the current kind is already set). -/
def pvStep (tt : Option TT) (valid : List String) (nPins nToks : Nat)
    (st : List Val × Option LogicMapping) (tok : String) :
    Except Err (List Val × Option LogicMapping) :=
  let step : Except Err (List Val × Option LogicMapping) :=
    if isIntTok tok then
      if nToks ≠ 1 then .error .onlyOneInt
      else
        match parsePyInt0 tok with
        | none => .error .intLiteral
        | some v =>
          if ¬ (v ≤ 2 ^ nPins - 1) then .error .intOverflow
          else .ok (st.1 ++ [Val.i (v : Int)], some .map)
    else
      match tt with
      | some t =>
        match ttLookup t tok with
        | some col => .ok (st.1 ++ col.map cellToVal, some .truth_table)
        | none => pvElse valid st tok
      | none => pvElse valid st tok
  match step with
  | .error e => .error e
  | .ok (parsed, newType) =>
    match st.2 with
    | none => .ok (parsed, newType)
    | some c =>
      if (c = .truth_table ∨ newType = some .truth_table) ∧ some c ≠ newType then
        .error .mixTT
      else .ok (parsed, some c)

/-- The value-token loop of parse_test_io (state: parsed values so far and
the line's current kind). -/
def pvLoop (tt : Option TT) (valid : List String) (nPins nToks : Nat)
    (st : List Val × Option LogicMapping) :
    List String → Except Err (List Val × Option LogicMapping)
  | [] => .ok st
  | tok :: rest =>
    match pvStep tt valid nPins nToks st tok with
    | .error e => .error e
    | .ok st2 => pvLoop tt valid nPins nToks st2 rest

/-- Kind resolution of parse_test_io lines 359-370: with no integer or
truth-table contribution, matching cardinality gives map (PinMapped), a
single value gives single, anything else raises. -/
def resolve_cmd_type (nPins nToks : Nat) : Option LogicMapping → Except Err LogicMapping
  | some c => .ok c
  | none =>
    if nPins = nToks then .ok .map
    else if nToks = 1 then .ok .single
    else .error .cardMismatch

/-- IOCommand of testvector.py as emitted by parse_test_io line 371. -/
structure IOCommand where
  pins : List PinName
  pin_vals : List Val
  volt_type : Option String
  cmd_type : LogicMapping
deriving DecidableEq, Repr

/-- Compilation of one I/O line: the body of the loop of parse_test_io
(lines 280-371).  The source's locals pin_names / pin_vals / voltage are
written out as their defining expressions. -/
def parse_io_entry (pinMap : Option PinMapRaw) (tt : Option TT) (valid : List String)
    (key : IOKey) (rawVal : PVal) : Except Err IOCommand :=
  match validatePins pinMap (pinNamesOf key) with
  | .error e => .error e
  | .ok () =>
    match checkTypeStrInt rawVal with
    | .error e => .error e
    | .ok () =>
      match checkVoltage (splitValue (pvToStr rawVal)).2 with
      | .error e => .error e
      | .ok () =>
        match pvLoop tt valid (pinNamesOf key).length
            (splitValue (pvToStr rawVal)).1.length ([], none)
            (splitValue (pvToStr rawVal)).1 with
        | .error e => .error e
        | .ok st =>
          match resolve_cmd_type (pinNamesOf key).length
              (splitValue (pvToStr rawVal)).1.length st.2 with
          | .error e => .error e
          | .ok kind => .ok ⟨pinNamesOf key, st.1, (splitValue (pvToStr rawVal)).2, kind⟩

/-- parse_test_io of parser.py: compile every line of an Inputs/Outputs
section in order. -/
def parse_test_io (pinMap : Option PinMapRaw) (tt : Option TT) (valid : List String) :
    List (IOKey × PVal) → Except Err (List IOCommand)
  | [] => .ok []
  | (k, v) :: rest =>
    match parse_io_entry pinMap tt valid k v with
    | .error e => .error e
    | .ok cmd =>
      match parse_test_io pinMap tt valid rest with
      | .error e => .error e
      | .ok cmds => .ok (cmd :: cmds)

/-! ## Claims C1, C2, C3: the I/O line compiler -/

/-- Helper: a successful pin-validation pass implies every declared pin
component resolves and is in range. -/
theorem validatePins_ok_forall (pinMap : Option PinMapRaw) (l : List PinName)
    (h : validatePins pinMap l = .ok ()) :
    ∀ p ∈ l, ∃ v, resolvePinName pinMap p = .ok v ∧ checkPinPV v = .ok () := by
  induction l with
  | nil => intro p hp; cases hp
  | cons a rest ih =>
    intro p hp
    rw [validatePins] at h
    cases hres : resolvePinName pinMap a with
    | error e => simp [hres] at h
    | ok v =>
      simp only [hres] at h
      cases hchk : checkPinPV v with
      | error e => simp [hchk] at h
      | ok u =>
        cases u
        simp only [hchk] at h
        cases hp with
        | head => exact ⟨v, hres, hchk⟩
        | tail _ hmem => exact ih h p hmem

/-- C1 (counterexample): a line whose value expression lists a literal
logic symbol first and a truth-table column identifier second compiles
successfully (no IncompatibleEncodingError), so the mixing error is not
order-independent. -/
theorem mix_order_counterexample :
    parse_test_io none (some [("c", [some "H", some "L"])]) INPUT_LOGIC
      [(.kStr "1,2", .pStr "H,c")] =
      .ok [⟨[.ps "1", .ps "2"], [.s "H", .s "H", .s "L"], none, .truth_table⟩] := by
  rfl

/-- C1 (amended): in a two-token value expression mixing a truth-table
column identifier with a token of another kind, the IncompatibleEncoding
error is raised exactly when a non-truth-table token is processed after
the line's kind has become TruthTableReferenced: identifier-then-symbol
raises, symbol-then-identifier compiles (the symbol is prepended to the
expanded column and the kind becomes truth_table), and an integer literal
in a multi-token line fails in either order with the one-integer-only
error. -/
theorem mix_truth_table_order (t : TT) (valid : List String) (nPins : Nat)
    (c sym : String) (col : List (Option String))
    (hci : isIntTok c = false) (hcol : ttLookup t c = some col)
    (hsi : isIntTok sym = false) (hslk : ttLookup t sym = none)
    (hsv : valid.contains sym = true) :
    pvLoop (some t) valid nPins 2 ([], none) [c, sym] = .error .mixTT ∧
    pvLoop (some t) valid nPins 2 ([], none) [sym, c] =
      .ok (Val.s sym :: col.map cellToVal, some .truth_table) ∧
    (∀ num : String, isIntTok num = true →
      pvLoop (some t) valid nPins 2 ([], none) [c, num] = .error .onlyOneInt ∧
      pvLoop (some t) valid nPins 2 ([], none) [num, c] = .error .onlyOneInt) := by
  have hmem : sym ∈ valid := by simpa using hsv
  refine ⟨?_, ?_, ?_⟩
  · simp [pvLoop, pvStep, pvElse, hci, hcol, hsi, hslk, hmem]
  · simp [pvLoop, pvStep, pvElse, hci, hcol, hsi, hslk, hmem]
  · intro num hnum
    constructor
    · simp [pvLoop, pvStep, pvElse, hci, hcol, hnum]
    · simp [pvLoop, pvStep, hnum]

theorem mix_truth_table_order_witness :
    pvLoop (some [("c", [some "L"])]) INPUT_LOGIC 2 2 ([], none) ["c", "H"] =
      .error .mixTT ∧
    pvLoop (some [("c", [some "L"])]) INPUT_LOGIC 2 2 ([], none) ["H", "c"] =
      .ok ([Val.s "H", Val.s "L"], some .truth_table) ∧
    pvLoop (some [("c", [some "L"])]) INPUT_LOGIC 2 2 ([], none) ["c", "5"] =
      .error .onlyOneInt ∧
    pvLoop (some [("c", [some "L"])]) INPUT_LOGIC 2 2 ([], none) ["5", "c"] =
      .error .onlyOneInt := by
  have h := mix_truth_table_order [("c", [some "L"])] INPUT_LOGIC 2 "c" "H"
    [some "L"] (by rfl) (by rfl) (by rfl) (by rfl) (by rfl)
  have h3 := h.2.2 "5" (by rfl)
  exact ⟨h.1, h.2.1, h3.1, h3.2⟩

/-- C2 (counterexample): a line declared with the symbolic pin name "A"
(mapped to pin 3 by the pin map) compiles to an IOCommand whose pin list
still holds the name "A", not the resolved index 3. -/
theorem pins_unresolved_counterexample :
    parse_test_io (some [(.pStr "A", .pInt 3)]) none INPUT_LOGIC
      [(.kStr "A", .pStr "H")] =
      .ok [⟨[.ps "A"], [.s "H"], none, .map⟩] ∧
    [PinName.ps "A"] ≠ [PinName.pi 3] := by
  exact ⟨by rfl, by simp⟩

/-- C2 (amended): for every successfully compiled I/O line the emitted
IOCommand's pin list is the declared pin list verbatim (symbolic names are
not replaced); each component is nevertheless validated: it resolves (via
the pin map or as digits) to a value that passes the range check.  Index
resolution is deferred to execution time (TestVector.get_pin). -/
theorem pins_validated_not_resolved (pinMap : Option PinMapRaw) (tt : Option TT)
    (valid : List String) (key : IOKey) (rawVal : PVal) (cmd : IOCommand)
    (h : parse_io_entry pinMap tt valid key rawVal = .ok cmd) :
    cmd.pins = pinNamesOf key ∧
    ∀ p ∈ cmd.pins, ∃ v, resolvePinName pinMap p = .ok v ∧ checkPinPV v = .ok () := by
  rw [parse_io_entry] at h
  cases hv : validatePins pinMap (pinNamesOf key) with
  | error e => simp [hv] at h
  | ok u =>
    cases u
    simp only [hv] at h
    cases hty : checkTypeStrInt rawVal with
    | error e => simp [hty] at h
    | ok u =>
      cases u
      simp only [hty] at h
      cases hcv : checkVoltage (splitValue (pvToStr rawVal)).2 with
      | error e => simp [hcv] at h
      | ok u =>
        cases u
        simp only [hcv] at h
        cases hpl : pvLoop tt valid (pinNamesOf key).length
            (splitValue (pvToStr rawVal)).1.length ([], none)
            (splitValue (pvToStr rawVal)).1 with
        | error e => simp [hpl] at h
        | ok st =>
          simp only [hpl] at h
          cases hrc : resolve_cmd_type (pinNamesOf key).length
              (splitValue (pvToStr rawVal)).1.length st.2 with
          | error e => simp [hrc] at h
          | ok kind =>
            simp only [hrc] at h
            cases h
            exact ⟨rfl, validatePins_ok_forall pinMap (pinNamesOf key) hv⟩

theorem pins_validated_not_resolved_witness :
    ∃ cmd : IOCommand,
      parse_io_entry (some [(.pStr "A", .pInt 3)]) none INPUT_LOGIC
        (.kStr "A") (.pStr "H") = .ok cmd ∧
      cmd.pins = pinNamesOf (.kStr "A") ∧
      ∀ p ∈ cmd.pins, ∃ v,
        resolvePinName (some [(.pStr "A", .pInt 3)]) p = .ok v ∧ checkPinPV v = .ok () := by
  refine ⟨⟨[.ps "A"], [.s "H"], none, .map⟩, by rfl, ?_⟩
  exact pins_validated_not_resolved (some [(.pStr "A", .pInt 3)]) none INPUT_LOGIC
    (.kStr "A") (.pStr "H") ⟨[.ps "A"], [.s "H"], none, .map⟩ (by rfl)

/-- C3: an n-pin line whose value expression is a single integer literal
token of value v compiles exactly when v is at most 2 to the n minus 1, in
which case the line's kind is map (PinMapped) and the parsed value list is
the single integer; larger values (in particular v equal to 2 to the n)
fail with the integer-overflow error. -/
theorem integer_literal_range (pinMap : Option PinMapRaw) (tt : Option TT)
    (valid : List String) (key : IOKey) (rawVal : PVal) (tok : String) (v n : Nat)
    (hn : (pinNamesOf key).length = n)
    (hpins : validatePins pinMap (pinNamesOf key) = .ok ())
    (hty : checkTypeStrInt rawVal = .ok ())
    (hsplit : splitValue (pvToStr rawVal) = ([tok], none))
    (hint : isIntTok tok = true)
    (hval : parsePyInt0 tok = some v) :
    parse_io_entry pinMap tt valid key rawVal =
      (if v ≤ 2 ^ n - 1 then
        .ok ⟨pinNamesOf key, [Val.i (v : Int)], none, .map⟩
      else .error .intOverflow) := by
  rw [parse_io_entry, hpins, hsplit]
  by_cases hle : v ≤ 2 ^ n - 1
  · simp [hty, checkVoltage, pvLoop, pvStep, hint, hval, hn, resolve_cmd_type, hle]
  · simp [hty, checkVoltage, pvLoop, pvStep, hint, hval, hn, hle]

theorem integer_literal_range_witness :
    parse_io_entry none none OUTPUT_LOGIC (.kStr "1,3,2") (.pStr "5") =
      .ok ⟨[.ps "1", .ps "3", .ps "2"], [Val.i 5], none, .map⟩ ∧
    parse_io_entry none none OUTPUT_LOGIC (.kStr "1,3,2") (.pStr "8") =
      .error .intOverflow := by
  constructor
  · have h := integer_literal_range none none OUTPUT_LOGIC (.kStr "1,3,2") (.pStr "5")
      "5" 5 3 (by rfl) (by rfl) (by rfl) (by rfl) (by rfl) (by rfl)
    simpa using h
  · have h := integer_literal_range none none OUTPUT_LOGIC (.kStr "1,3,2") (.pStr "8")
      "8" 8 3 (by rfl) (by rfl) (by rfl) (by rfl) (by rfl) (by rfl)
    simpa using h

/-! ## parse_truth_table of parser.py (the truth-table compiler) -/

/-- Cell write `tt[key][i] = v` of parse_truth_table line 181. -/
def setCol (tt : TT) (key : String) (i : Nat) (v : String) : TT :=
  tt.map (fun kv => if kv.1 = key then (kv.1, kv.2.set i (some v)) else kv)

/-- Per-cell checks and write of parse_truth_table lines 163-181: the key
must be a first-row column name, must not collide with a reserved logic
symbol, and the value must be a reserved logic symbol. -/
def ttProcessCell (colNames : List String) (i : Nat) (tt : TT) (kv : String × String) :
    Except Err TT :=
  if ¬ colNames.contains kv.1 then .error .columnName
  else if TRUTH_TABLE_LOGIC.contains kv.1 then .error .reservedIdentifier
  else if ¬ TRUTH_TABLE_LOGIC.contains kv.2 then .error .invalidLogic
  else .ok (setCol tt kv.1 i kv.2)

/-- Worker: process the cells of one row in order. -/
def ttCellLoop (colNames : List String) (i : Nat) (tt : TT) :
    List (String × String) → Except Err TT
  | [] => .ok tt
  | kv :: rest =>
    match ttProcessCell colNames i tt kv with
    | .error e => .error e
    | .ok tt2 => ttCellLoop colNames i tt2 rest

/-- Row processing of parse_truth_table lines 156-181: the row must have
exactly as many columns as the first row, then its cells are processed. -/
def ttProcessRow (colNum : Nat) (colNames : List String) (i : Nat) (tt : TT)
    (row : List (String × String)) : Except Err TT :=
  if row.length ≠ colNum then .error .columnCount
  else ttCellLoop colNames i tt row

/-- Worker: process the rows in order, tracking the enumeration index. -/
def ttRowLoop (colNum : Nat) (colNames : List String) (tt : TT) (i : Nat) :
    List (List (String × String)) → Except Err TT
  | [] => .ok tt
  | row :: rest =>
    match ttProcessRow colNum colNames i tt row with
    | .error e => .error e
    | .ok tt2 => ttRowLoop colNum colNames tt2 (i + 1) rest

/-- parse_truth_table of parser.py: a row models one YAML row-dict as an
association list in insertion order (the str key-type check of line 153 is
inherent in the String key type).  The empty table hits the Python
IndexError of `truth_table[0]`.  Columns start as None placeholders of the
table's row count and are filled row by row. -/
def parse_truth_table (truth_table : List (List (String × String))) : Except Err TT :=
  match truth_table with
  | [] => .error .indexErr
  | row0 :: _ =>
    ttRowLoop row0.length (row0.map Prod.fst)
      ((row0.map Prod.fst).map (fun c => (c, List.replicate truth_table.length none)))
      0 truth_table

/-- Python `row[key]` cell access on the association-list row model. -/
def rowLookup (row : List (String × String)) (c : String) : Option String :=
  (row.find? (fun kv => kv.1 == c)).map (fun kv => kv.2)

/-- One cell passes the checks of parse_truth_table lines 163-180. -/
def cellOk (colNames : List String) (kv : String × String) : Bool :=
  colNames.contains kv.1 && !(TRUTH_TABLE_LOGIC.contains kv.1) &&
    TRUTH_TABLE_LOGIC.contains kv.2

/-- Invariant while filling the table: every column has the full row count,
cells of already processed rows hold that row's value for the column, and
cells of unprocessed rows still hold the None placeholder. -/
def RowsInv (rows : List (List (String × String))) (k : Nat) (tt : TT) : Prop :=
  ∀ c col, (c, col) ∈ tt →
    col.length = rows.length ∧
    (∀ i r, i < k → rows[i]? = some r → col[i]? = some (rowLookup r c)) ∧
    (∀ i, k ≤ i → i < rows.length → col[i]? = some none)

/-- Invariant while processing the cells of row `k`: like `RowsInv` away
from row `k`, and cell `k` of each column holds the processed prefix's
value for that column. -/
def CellInv (rows : List (List (String × String))) (k : Nat)
    (done : List (String × String)) (tt : TT) : Prop :=
  ∀ c col, (c, col) ∈ tt →
    col.length = rows.length ∧
    (∀ i r, i < k → rows[i]? = some r → col[i]? = some (rowLookup r c)) ∧
    (∀ i, k < i → i < rows.length → col[i]? = some none) ∧
    col[k]? = some (rowLookup done c)

theorem rowLookup_append_self (done : List (String × String)) (key v : String)
    (h : key ∉ done.map Prod.fst) :
    rowLookup (done ++ [(key, v)]) key = some v := by
  induction done with
  | nil => simp [rowLookup, List.find?]
  | cons kv rest ih =>
    simp only [List.map_cons, List.mem_cons, not_or] at h
    have hne : (kv.1 == key) = false := beq_eq_false_iff_ne.mpr (fun hh => h.1 hh.symm)
    simp only [rowLookup, List.cons_append, List.find?, hne]
    exact ih h.2

theorem rowLookup_append_ne (done : List (String × String)) (kv : String × String)
    (c : String) (h : kv.1 ≠ c) :
    rowLookup (done ++ [kv]) c = rowLookup done c := by
  induction done with
  | nil =>
    have hne : (kv.1 == c) = false := beq_eq_false_iff_ne.mpr h
    simp [rowLookup, List.find?, hne]
  | cons p rest ih =>
    cases hpc : (p.1 == c) with
    | true => simp only [rowLookup, List.cons_append, List.find?, hpc]
    | false =>
      simp only [rowLookup, List.cons_append, List.find?, hpc]
      exact ih

theorem mem_setCol (tt : TT) (key : String) (i : Nat) (v : String)
    (c : String) (col : List (Option String)) (h : (c, col) ∈ setCol tt key i v) :
    ∃ col₀, (c, col₀) ∈ tt ∧
      ((c = key ∧ col = col₀.set i (some v)) ∨ (c ≠ key ∧ col = col₀)) := by
  unfold setCol at h
  obtain ⟨kv, hkv, heq⟩ := List.mem_map.mp h
  by_cases hk : kv.1 = key
  · rw [if_pos hk] at heq
    injection heq with h1 h2
    subst h1
    subst h2
    exact ⟨kv.2, hkv, Or.inl ⟨hk, rfl⟩⟩
  · rw [if_neg hk] at heq
    subst heq
    exact ⟨col, hkv, Or.inr ⟨fun hh => hk hh, rfl⟩⟩

theorem cellInv_set (rows : List (List (String × String))) (k : Nat)
    (done : List (String × String)) (tt : TT) (key v : String)
    (hk : k < rows.length) (hnotin : key ∉ done.map Prod.fst)
    (hinv : CellInv rows k done tt) :
    CellInv rows k (done ++ [(key, v)]) (setCol tt key k v) := by
  intro c col hmem
  obtain ⟨col₀, hmem₀, hcase⟩ := mem_setCol tt key k v c col hmem
  obtain ⟨hlen, hlt, hgt, hcell⟩ := hinv c col₀ hmem₀
  cases hcase with
  | inl hc =>
    obtain ⟨hck, hcol⟩ := hc
    subst hcol
    refine ⟨by rw [List.length_set]; exact hlen, ?_, ?_, ?_⟩
    · intro i r hi hr
      rw [List.getElem?_set_ne (by omega)]
      exact hlt i r hi hr
    · intro i hi hilen
      rw [List.getElem?_set_ne (by omega)]
      exact hgt i hi hilen
    · rw [List.getElem?_set_eq_of_lt _ (by rw [hlen]; exact hk)]
      rw [hck, rowLookup_append_self done key v hnotin]
  | inr hc =>
    obtain ⟨hck, hcol⟩ := hc
    subst hcol
    refine ⟨hlen, hlt, hgt, ?_⟩
    rw [rowLookup_append_ne done (key, v) c (fun hh => hck (hh.symm)), hcell]

theorem ttCellLoop_inv (rows : List (List (String × String))) (k : Nat)
    (colNames : List String) (hk : k < rows.length) :
    ∀ todo done tt tt2,
      (done.map Prod.fst ++ todo.map Prod.fst).Nodup →
      CellInv rows k done tt →
      ttCellLoop colNames k tt todo = .ok tt2 →
      CellInv rows k (done ++ todo) tt2 := by
  intro todo
  induction todo with
  | nil =>
    intro done tt tt2 _ hinv hloop
    rw [ttCellLoop] at hloop
    cases hloop
    simpa using hinv
  | cons kv rest ih =>
    intro done tt tt2 hnd hinv hloop
    rw [ttCellLoop] at hloop
    cases hcell : ttProcessCell colNames k tt kv with
    | error e => rw [hcell] at hloop; cases hloop
    | ok tt3 =>
      rw [hcell] at hloop
      unfold ttProcessCell at hcell
      by_cases h1 : colNames.contains kv.1
      · rw [if_neg (by simpa using h1)] at hcell
        by_cases h2 : TRUTH_TABLE_LOGIC.contains kv.1
        · rw [if_pos h2] at hcell; cases hcell
        · rw [if_neg h2] at hcell
          by_cases h3 : TRUTH_TABLE_LOGIC.contains kv.2
          · rw [if_neg (by simpa using h3)] at hcell
            cases hcell
            have hnotin : kv.1 ∉ done.map Prod.fst := by
              have := List.disjoint_of_nodup_append hnd
              intro hin
              exact this hin (by simp)
            have hinv2 := cellInv_set rows k done tt kv.1 kv.2 hk hnotin hinv
            have hnd2 : ((done ++ [(kv.1, kv.2)]).map Prod.fst ++ rest.map Prod.fst).Nodup := by
              simp only [List.map_append, List.map_cons, List.map_nil, List.append_assoc,
                List.singleton_append]
              simpa using hnd
            have := ih (done ++ [(kv.1, kv.2)]) (setCol tt kv.1 k kv.2) tt2 hnd2
              hinv2 hloop
            simpa [Prod.mk.eta] using this
          · rw [if_pos (by simpa using h3)] at hcell; cases hcell
      · rw [if_pos (by simpa using h1)] at hcell; cases hcell

theorem rowsInv_to_cellInv (rows : List (List (String × String))) (k : Nat) (tt : TT)
    (hk : k < rows.length) (hinv : RowsInv rows k tt) : CellInv rows k [] tt := by
  intro c col hmem
  obtain ⟨hlen, hlt, hge⟩ := hinv c col hmem
  exact ⟨hlen, hlt, fun i hi hilen => hge i (by omega) hilen,
    by simpa [rowLookup, List.find?] using hge k (le_refl k) hk⟩

theorem cellInv_to_rowsInv (rows : List (List (String × String))) (k : Nat) (tt : TT)
    (row : List (String × String)) (hrow : rows[k]? = some row)
    (hinv : CellInv rows k row tt) : RowsInv rows (k + 1) tt := by
  intro c col hmem
  obtain ⟨hlen, hlt, hgt, hcell⟩ := hinv c col hmem
  refine ⟨hlen, ?_, ?_⟩
  · intro i r hi hr
    by_cases hik : i < k
    · exact hlt i r hik hr
    · have : i = k := by omega
      subst this
      rw [hr] at hrow
      cases hrow
      exact hcell
  · intro i hi hilen
    exact hgt i (by omega) hilen

theorem ttRowLoop_inv (rows : List (List (String × String)))
    (colNum : Nat) (colNames : List String) :
    ∀ rs k tt tt2,
      (∀ j : Nat, rs[j]? = rows[k + j]?) →
      (∀ row ∈ rs, (row.map Prod.fst).Nodup) →
      RowsInv rows k tt →
      ttRowLoop colNum colNames tt k rs = .ok tt2 →
      RowsInv rows (k + rs.length) tt2 := by
  intro rs
  induction rs with
  | nil =>
    intro k tt tt2 _ _ hinv hloop
    rw [ttRowLoop] at hloop
    cases hloop
    simpa using hinv
  | cons row rest ih =>
    intro k tt tt2 hsuf hnd hinv hloop
    rw [ttRowLoop] at hloop
    cases hrow : ttProcessRow colNum colNames k tt row with
    | error e => rw [hrow] at hloop; cases hloop
    | ok tt3 =>
      rw [hrow] at hloop
      unfold ttProcessRow at hrow
      by_cases hclen : row.length = colNum
      · rw [if_neg (by simpa using hclen)] at hrow
        have hk : rows[k]? = some row := by
          have := hsuf 0
          simpa using this.symm
        have hklt : k < rows.length := (List.getElem?_eq_some.mp hk).1
        have hcinv := rowsInv_to_cellInv rows k tt hklt hinv
        have hcell := ttCellLoop_inv rows k colNames hklt row [] tt tt3
          (by simpa using hnd row (by simp)) hcinv hrow
        have hrinv := cellInv_to_rowsInv rows k tt3 row hk (by simpa using hcell)
        have := ih (k + 1) tt3 tt2
          (fun j => by
            have := hsuf (j + 1)
            simpa [Nat.add_assoc, Nat.add_comm 1 j] using this)
          (fun r hr => hnd r (by simp [hr]))
          hrinv hloop
        have harith : k + 1 + rest.length = k + (rest.length + 1) := by omega
        simpa [List.length_cons, harith] using this
      · rw [if_pos (by simpa using hclen)] at hrow
        cases hrow

theorem rowsInv_init (rows : List (List (String × String))) (colNames : List String) :
    RowsInv rows 0 (colNames.map (fun c => (c, List.replicate rows.length none))) := by
  intro c col hmem
  obtain ⟨c0, _, heq⟩ := List.mem_map.mp hmem
  have hcol : col = List.replicate rows.length none := by cases heq; rfl
  subst hcol
  refine ⟨List.length_replicate _ _, ?_, ?_⟩
  · intro i r hi
    omega
  · intro i _ hilen
    rw [List.getElem?_replicate, if_pos hilen]

theorem ttCellLoop_ok_of_all (colNames : List String) (k : Nat) :
    ∀ row tt, row.all (cellOk colNames) = true →
      ∃ tt2, ttCellLoop colNames k tt row = .ok tt2 := by
  intro row
  induction row with
  | nil => intro tt _; exact ⟨tt, rfl⟩
  | cons kv rest ih =>
    intro tt hall
    simp only [List.all_cons, Bool.and_eq_true] at hall
    obtain ⟨hcell, hrest⟩ := hall
    unfold cellOk at hcell
    simp only [Bool.and_eq_true, Bool.not_eq_true'] at hcell
    obtain ⟨⟨h1, h2⟩, h3⟩ := hcell
    obtain ⟨tt2, hloop⟩ := ih (setCol tt kv.1 k kv.2) hrest
    refine ⟨tt2, ?_⟩
    have h1m : kv.1 ∈ colNames := by simpa using h1
    have h2m : kv.1 ∉ TRUTH_TABLE_LOGIC := by simpa using h2
    have h3m : kv.2 ∈ TRUTH_TABLE_LOGIC := by simpa using h3
    rw [ttCellLoop]
    unfold ttProcessCell
    rw [if_neg (by simp [h1m]), if_neg (by simp [h2m]), if_neg (by simp [h3m])]
    exact hloop

theorem ttRowLoop_error_short (colNum : Nat) (colNames : List String)
    (sr : List (String × String)) (rest : List (List (String × String)))
    (hshort : sr.length ≠ colNum) :
    ∀ goodRows k tt,
      (∀ r ∈ goodRows, r.length = colNum ∧ r.all (cellOk colNames) = true) →
      ttRowLoop colNum colNames tt k (goodRows ++ sr :: rest) = .error .columnCount := by
  intro goodRows
  induction goodRows with
  | nil =>
    intro k tt _
    rw [List.nil_append, ttRowLoop]
    unfold ttProcessRow
    rw [if_pos (by simpa using hshort)]
  | cons g gs ih =>
    intro k tt hgood
    rw [List.cons_append, ttRowLoop]
    obtain ⟨hglen, hgall⟩ := hgood g (by simp)
    obtain ⟨tt2, hloop⟩ := ttCellLoop_ok_of_all colNames k g tt hgall
    unfold ttProcessRow
    rw [if_neg (by simpa using hglen), hloop]
    exact ih (k + 1) tt2 (fun r hr => hgood r (by simp [hr]))

/-- C7: (success) every column of a compiled truth table has exactly the
table's row count of cells, and cell i of column c is row i's value for c
(rows model dicts, so their keys are assumed duplicate-free); (failure)
a table whose first rows are valid and which then contains a row with
fewer columns than the first row fails with the column-count error. -/
theorem truth_table_columns :
    (∀ rows tt, (∀ row ∈ rows, (row.map Prod.fst).Nodup) →
      parse_truth_table rows = .ok tt →
      ∀ c col, (c, col) ∈ tt → col.length = rows.length ∧
        ∀ (i : Nat) (r : List (String × String)),
          rows[i]? = some r → col[i]? = some (rowLookup r c)) ∧
    (∀ (row0 sr : List (String × String)) (pre rest : List (List (String × String))),
      (∀ r ∈ row0 :: pre, r.length = row0.length ∧
        r.all (cellOk (row0.map Prod.fst)) = true) →
      sr.length < row0.length →
      parse_truth_table (row0 :: (pre ++ sr :: rest)) = .error .columnCount) := by
  constructor
  · intro rows tt hnd hparse
    cases rows with
    | nil => simp [parse_truth_table] at hparse
    | cons row0 rest =>
      rw [parse_truth_table] at hparse
      have hinv := ttRowLoop_inv (row0 :: rest) row0.length (row0.map Prod.fst)
        (row0 :: rest) 0
        ((row0.map Prod.fst).map (fun c => (c, List.replicate (row0 :: rest).length none)))
        tt (fun j => by simp) hnd
        (rowsInv_init (row0 :: rest) (row0.map Prod.fst)) hparse
      intro c col hmem
      obtain ⟨hlen, hlt, _⟩ := hinv c col hmem
      refine ⟨hlen, ?_⟩
      intro i r hr
      have hi : i < (row0 :: rest).length := (List.getElem?_eq_some.mp hr).1
      exact hlt i r (by omega) hr
  · intro row0 sr pre rest hgood hshort
    rw [parse_truth_table]
    have : row0 :: (pre ++ sr :: rest) = (row0 :: pre) ++ sr :: rest := by simp
    rw [this]
    exact ttRowLoop_error_short row0.length (row0.map Prod.fst) sr rest
      (by omega) (row0 :: pre) 0 _ hgood

theorem truth_table_columns_witness :
    parse_truth_table [[("A", "H"), ("B", "L")], [("A", "L")]] = .error .columnCount ∧
    (∀ c col, (c, col) ∈ [("A", [some "H", some "L"]), ("B", [some "L", some "H"])] →
      col.length = 2 ∧ ∀ (i : Nat) (r : List (String × String)),
        [[("A", "H"), ("B", "L")], [("A", "L"), ("B", "H")]][i]? = some r →
        col[i]? = some (rowLookup r c)) := by
  constructor
  · have h := truth_table_columns.2 [("A", "H"), ("B", "L")] [("A", "L")] [] []
      (by intro r hr; simp at hr; subst hr; constructor <;> rfl) (by simp)
    simpa using h
  · have h := truth_table_columns.1 [[("A", "H"), ("B", "L")], [("A", "L"), ("B", "H")]]
      [("A", [some "H", some "L"]), ("B", [some "L", some "H"])]
      (by intro r hr; simp at hr; rcases hr with h | h <;> (subst h; simp))
      (by rfl)
    simpa using h

/-! ## parse_global_params of parser.py (the global-parameter validator) -/

/-- Python dict access `d[key]` (KeyError when absent). -/
def getKey (gp : List (String × PVal)) (key : String) : Except Err PVal :=
  match gp.find? (fun kv => kv.1 == key) with
  | some kv => .ok kv.2
  | none => .error .keyErr

/-- Python dict.get(key, None). -/
def lookupPV (gp : List (String × PVal)) (key : String) : Option PVal :=
  (gp.find? (fun kv => kv.1 == key)).map (fun kv => kv.2)

/-- Python dict assignment `d[key] = v` for a key already present. -/
def setKey (gp : List (String × PVal)) (key : String) (v : PVal) :
    List (String × PVal) :=
  gp.map (fun kv => if kv.1 = key then (kv.1, v) else kv)

/-- check_keys of parser.py: every required key must be present; the
unknown-key branch only emits a warning and is not modelled. -/
def check_keys (exp_keys got_keys : List String) : Except Err Unit :=
  if exp_keys.all (fun k => got_keys.contains k) then .ok () else .error .missingKeys

/-- check_type(v, (int,)). -/
def checkTypeInt (v : PVal) : Except Err Unit :=
  match v with
  | .pInt _ => .ok ()
  | _ => .error .typeErr

/-- Python comparison `a >= b`: a TypeError unless both operands are
numbers. -/
def pyGE (a b : PVal) : Except Err Bool :=
  match pvToQ a, pvToQ b with
  | some x, some y => .ok (y ≤ x)
  | _, _ => .error .typeErr

/-- Threshold check of parse_global_params lines 210-218 for one key: a
truthy value must be numeric (check_type(int, float)) and
non-negative. -/
def checkThreshold (gp : List (String × PVal)) (key : String) : Except Err Unit :=
  match lookupPV gp key with
  | none => .ok ()
  | some thld =>
    if pvTruthy thld then
      match pvToQ thld with
      | none => .error .typeErr
      | some q => if q < 0 then .error .thresholdOrder else .ok ()
    else .ok ()

/-- The threshold loop of parse_global_params line 210, unrolled over its
four keys. -/
def checkThresholds (gp : List (String × PVal)) : Except Err Unit :=
  match checkThreshold gp "Output Low" with
  | .error e => .error e
  | .ok () =>
  match checkThreshold gp "Output High" with
  | .error e => .error e
  | .ok () =>
  match checkThreshold gp "Input Low" with
  | .error e => .error e
  | .ok () => checkThreshold gp "Input High"

/-- Power-pin checks of parse_global_params lines 193-202: both pins are
type-checked as ints, range-checked, and must differ. -/
def checkPowerPins (gp : List (String × PVal)) : Except Err Unit :=
  match getKey gp "VCC Pin" with
  | .error e => .error e
  | .ok vcc =>
  match checkTypeInt vcc with
  | .error e => .error e
  | .ok () =>
  match getKey gp "GND Pin" with
  | .error e => .error e
  | .ok gnd =>
  match checkTypeInt gnd with
  | .error e => .error e
  | .ok () =>
  match checkPinPV vcc with
  | .error e => .error e
  | .ok () =>
  match checkPinPV gnd with
  | .error e => .error e
  | .ok () =>
  if vcc = gnd then .error .vccGndSame else .ok ()

/-- VCC Voltage membership check of parse_global_params lines 203-208
(Python set membership of strings: a non-string value simply fails the
membership test). -/
def checkVccVoltage (gp : List (String × PVal)) : Except Err Unit :=
  match getKey gp "VCC Voltage" with
  | .error e => .error e
  | .ok vv =>
    match vv with
    | .pStr s =>
      if SUPPORTED_VOLTAGES.contains s then .ok () else .error .unsupportedVoltage
    | _ => .error .unsupportedVoltage

/-- Output threshold ordering of parse_global_params lines 220-225. -/
def checkOutputOrdering (gp : List (String × PVal)) : Except Err Unit :=
  match getKey gp "Output Low" with
  | .error e => .error e
  | .ok ol =>
  match getKey gp "Output High" with
  | .error e => .error e
  | .ok oh =>
  match pyGE ol oh with
  | .error e => .error e
  | .ok b => if b then .error .thresholdOrder else .ok ()

/-- Input threshold ordering of parse_global_params lines 227-235: guarded
by Python truthiness of both optional values, so a zero threshold skips
the check. -/
def checkInputOrdering (gp : List (String × PVal)) : Except Err Unit :=
  if pvTruthyO (lookupPV gp "Input Low") && pvTruthyO (lookupPV gp "Input High") then
    match lookupPV gp "Input Low", lookupPV gp "Input High" with
    | some il, some ih =>
      match pyGE il ih with
      | .error e => .error e
      | .ok b => if b then .error .thresholdOrder else .ok ()
    | _, _ => .ok ()
  else .ok ()

/-- Python \s whitespace class (ASCII). -/
def pyIsSpace (c : Char) : Bool :=
  c = ' ' || c = '\t' || c = '\n' || c = '\r' || c = '\x0b' || c = '\x0c'

/-- Number part of NUM_WITH_UNIT, the regex piece of digits, an optional
decimal point and digits: nonempty, only digits and at most one dot, and
ending in a digit. -/
def matchesNumPart (cs : List Char) : Bool :=
  cs ≠ [] && cs.all (fun c => c.isDigit || c = '.') &&
    (cs.filter (fun c => c = '.')).length ≤ 1 &&
    (match cs.getLast? with
     | some c => c.isDigit
     | none => false)

/-- NUM_WITH_UNIT of parser.py line 17: number, one whitespace, one
character of the class written [k|M] (which literally also contains the
bar), anchored at both ends by re.match and the trailing dollar. -/
def matchNumWithUnit (s : String) : Bool :=
  match s.data.reverse with
  | u :: w :: restRev =>
    (u = 'k' || u = '|' || u = 'M') && pyIsSpace w && matchesNumPart restRev.reverse
  | _ => false

/-- re.match(NUM_WITH_UNIT, v) on a dynamically typed value: a TypeError
unless the value is a string. -/
def reMatchNumWithUnit (v : PVal) : Except Err Bool :=
  match v with
  | .pStr s => .ok (matchNumWithUnit s)
  | _ => .error .typeErr

/-- Worker for `splitWs`. -/
def splitWsAux : List Char → List Char → List String
  | [], [] => []
  | [], acc => [String.mk acc.reverse]
  | c :: rest, acc =>
    if pyIsSpace c then
      (if acc.isEmpty then splitWsAux rest []
       else String.mk acc.reverse :: splitWsAux rest [])
    else splitWsAux rest (c :: acc)

/-- Python s.split() with no argument: split on whitespace runs, dropping
empty pieces. -/
def splitWs (s : String) : List String := splitWsAux s.data []

/-- Python float() on the number shapes the clock branch can produce
(digits with an optional single decimal point). -/
def parseDecimal (s : String) : Option ℚ :=
  match splitChar '.' s with
  | [intPart] =>
    if isPyDigits intPart then some ((digitsToNat intPart.data : ℚ)) else none
  | [intPart, fracPart] =>
    if intPart.data.all Char.isDigit && fracPart.data.all Char.isDigit &&
        (intPart.data ≠ [] || fracPart.data ≠ []) then
      some ((digitsToNat intPart.data : ℚ) +
        (digitsToNat fracPart.data : ℚ) / ((10 : ℚ) ^ fracPart.data.length))
    else none
  | _ => none

/-- VoltageUnit of parser.py line 19: note the source writes 10e3 and
10e6, which are 10^4 and 10^7, not the kilo/mega multipliers 10^3 and
10^6; an unknown unit name is the Python KeyError of VoltageUnit[...]. -/
def voltageUnit : String → Except Err ℚ
  | "k" => .ok 10000
  | "M" => .ok 10000000
  | _ => .error .keyErr

/-- Clock enum of parser.py line 18: MIN = MAX = -1 (placeholder). -/
def ClockMIN : ℚ := -1

/-- Clock enum of parser.py line 18: MIN = MAX = -1 (placeholder). -/
def ClockMAX : ℚ := -1

/-- Range check of parse_global_params lines 249-254 on the (possibly
normalized) CLK Freq value. -/
def clkRangeCheck (v : PVal) : Except Err Unit :=
  match pvToQ v with
  | none => .error .typeErr
  | some q => if ¬ (ClockMIN ≤ q ∧ q ≤ ClockMAX) then .error .clockRange else .ok ()

/-- Clock-frequency section of parse_global_params lines 237-255.  The
check_type of line 240 accepts str, int and float, hence every `PVal`.
Note the re.match of line 242 is applied to `global_params[param]`, where
`param` is the stale loop variable of line 196 and still holds "GND Pin";
the embedding reproduces that read faithfully. -/
def checkClkFreq (gp : List (String × PVal)) : Except Err Unit :=
  match lookupPV gp "CLK Freq" with
  | none => .ok ()
  | some clk =>
    if pvTruthy clk then
      match clk with
      | .pStr s =>
        match getKey gp "GND Pin" with
        | .error e => .error e
        | .ok pv =>
          match reMatchNumWithUnit pv with
          | .error e => .error e
          | .ok b =>
            if b = false then .error .clockFormat
            else
              match splitWs s with
              | p0 :: p1 :: _ =>
                match parseDecimal p0 with
                | none => .error .floatLiteral
                | some q =>
                  match voltageUnit p1 with
                  | .error e => .error e
                  | .ok m => clkRangeCheck (.pFlt (q * m))
              | _ => .error .indexErr
      | _ => clkRangeCheck clk
    else .ok ()

/-- parse_global_params of parser.py lines 184-256, as the sequence of its
check paragraphs. -/
def parse_global_params (gp : List (String × PVal)) : Except Err Unit :=
  match check_keys ["VCC Pin", "GND Pin", "VCC Voltage", "Output Low", "Output High"]
      (gp.map Prod.fst) with
  | .error e => .error e
  | .ok () =>
  match checkPowerPins gp with
  | .error e => .error e
  | .ok () =>
  match checkVccVoltage gp with
  | .error e => .error e
  | .ok () =>
  match checkThresholds gp with
  | .error e => .error e
  | .ok () =>
  match checkOutputOrdering gp with
  | .error e => .error e
  | .ok () =>
  match checkInputOrdering gp with
  | .error e => .error e
  | .ok () => checkClkFreq gp
deriving instance DecidableEq for Except

/-! ## Claims C5, C6: global-parameter validation -/

/-- Helper: a successful parse_global_params implies every check paragraph
succeeded. -/
theorem parse_global_params_ok (gp : List (String × PVal))
    (h : parse_global_params gp = .ok ()) :
    checkPowerPins gp = .ok () ∧ checkVccVoltage gp = .ok () ∧
    checkThresholds gp = .ok () ∧ checkOutputOrdering gp = .ok () ∧
    checkInputOrdering gp = .ok () ∧ checkClkFreq gp = .ok () := by
  unfold parse_global_params at h
  cases h1 : check_keys ["VCC Pin", "GND Pin", "VCC Voltage", "Output Low", "Output High"]
      (gp.map Prod.fst) with
  | error e => simp [h1] at h
  | ok u =>
    cases u
    simp only [h1] at h
    cases h2 : checkPowerPins gp with
    | error e => simp [h2] at h
    | ok u =>
      cases u
      simp only [h2] at h
      cases h3 : checkVccVoltage gp with
      | error e => simp [h3] at h
      | ok u =>
        cases u
        simp only [h3] at h
        cases h4 : checkThresholds gp with
        | error e => simp [h4] at h
        | ok u =>
          cases u
          simp only [h4] at h
          cases h5 : checkOutputOrdering gp with
          | error e => simp [h5] at h
          | ok u =>
            cases u
            simp only [h5] at h
            cases h6 : checkInputOrdering gp with
            | error e => simp [h6] at h
            | ok u =>
              cases u
              simp only [h6] at h
              exact ⟨rfl, rfl, rfl, rfl, rfl, h⟩

/-- Helper: the four unrolled threshold checks succeed individually. -/
theorem checkThresholds_ok (gp : List (String × PVal))
    (h : checkThresholds gp = .ok ()) :
    checkThreshold gp "Output Low" = .ok () ∧ checkThreshold gp "Output High" = .ok () ∧
    checkThreshold gp "Input Low" = .ok () ∧ checkThreshold gp "Input High" = .ok () := by
  unfold checkThresholds at h
  cases h1 : checkThreshold gp "Output Low" with
  | error e => simp [h1] at h
  | ok u =>
    cases u
    simp only [h1] at h
    cases h2 : checkThreshold gp "Output High" with
    | error e => simp [h2] at h
    | ok u =>
      cases u
      simp only [h2] at h
      cases h3 : checkThreshold gp "Input Low" with
      | error e => simp [h3] at h
      | ok u =>
        cases u
        simp only [h3] at h
        exact ⟨rfl, rfl, rfl, h⟩

/-- Helper: a truthy threshold value that passed its check is a
non-negative number. -/
theorem checkThreshold_ok (gp : List (String × PVal)) (key : String)
    (h : checkThreshold gp key = .ok ()) (t : PVal)
    (ht : lookupPV gp key = some t) (htr : pvTruthy t = true) :
    ∃ q, pvToQ t = some q ∧ 0 ≤ q := by
  unfold checkThreshold at h
  simp only [ht, htr, if_true] at h
  cases hq : pvToQ t with
  | none => simp [hq] at h
  | some q =>
    simp only [hq] at h
    by_cases h5 : q < 0
    · simp [h5] at h
    · exact ⟨q, rfl, not_lt.mp h5⟩

/-- Helper: a falsy numeric value is zero. -/
theorem pvToQ_zero_of_falsy (t : PVal) (q : ℚ)
    (ht : pvTruthy t = false) (hq : pvToQ t = some q) : q = 0 := by
  cases t with
  | pInt n =>
    simp only [pvTruthy, decide_eq_false_iff_not, not_not] at ht
    simp only [pvToQ, Option.some.injEq] at hq
    rw [← hq, ht]
    simp
  | pFlt x =>
    simp only [pvTruthy, decide_eq_false_iff_not, not_not] at ht
    simp only [pvToQ, Option.some.injEq] at hq
    rw [← hq, ht]
  | pStr s => simp [pvToQ] at hq

/-- Helper: a threshold value that passed its check and is numeric is
non-negative (truthy or zero). -/
theorem threshold_nonneg (gp : List (String × PVal)) (key : String)
    (hth : checkThreshold gp key = .ok ()) (t : PVal) (q : ℚ)
    (ht : lookupPV gp key = some t) (hq : pvToQ t = some q) : 0 ≤ q := by
  cases htr : pvTruthy t with
  | true =>
    obtain ⟨q2, hq2, hge⟩ := checkThreshold_ok gp key hth t ht htr
    rw [hq] at hq2
    cases hq2
    exact hge
  | false =>
    rw [pvToQ_zero_of_falsy t q htr hq]

/-- Helper: a successful output-ordering check yields numeric thresholds
with Low strictly below High. -/
theorem checkOutputOrdering_ok (gp : List (String × PVal))
    (h : checkOutputOrdering gp = .ok ()) :
    ∃ ol oh qol qoh,
      getKey gp "Output Low" = .ok ol ∧ getKey gp "Output High" = .ok oh ∧
      pvToQ ol = some qol ∧ pvToQ oh = some qoh ∧ qol < qoh := by
  unfold checkOutputOrdering at h
  cases h1 : getKey gp "Output Low" with
  | error e => simp [h1] at h
  | ok ol =>
    simp only [h1] at h
    cases h2 : getKey gp "Output High" with
    | error e => simp [h2] at h
    | ok oh =>
      simp only [h2] at h
      unfold pyGE at h
      cases h3 : pvToQ ol with
      | none => simp [h3] at h
      | some qol =>
        cases h4 : pvToQ oh with
        | none => simp [h3, h4] at h
        | some qoh =>
          simp only [h3, h4] at h
          by_cases h5 : qoh ≤ qol
          · simp [h5] at h
          · exact ⟨ol, oh, qol, qoh, rfl, rfl, h3, h4, not_le.mp h5⟩

/-- Helper: when both optional input thresholds are present, truthy and
numeric, a successful input-ordering check forces Low strictly below
High. -/
theorem checkInputOrdering_ok (gp : List (String × PVal))
    (h : checkInputOrdering gp = .ok ()) (il ih : PVal) (qil qih : ℚ)
    (hil : lookupPV gp "Input Low" = some il)
    (hih : lookupPV gp "Input High" = some ih)
    (htl : pvTruthy il = true) (hth : pvTruthy ih = true)
    (hq1 : pvToQ il = some qil) (hq2 : pvToQ ih = some qih) : qil < qih := by
  unfold checkInputOrdering at h
  simp only [hil, hih, pvTruthyO, htl, hth, Bool.and_self, if_true] at h
  unfold pyGE at h
  simp only [hq1, hq2] at h
  by_cases h5 : qih ≤ qil
  · simp [h5] at h
  · exact not_le.mp h5

/-- Helper: `getKey` and `lookupPV` agree. -/
theorem getKey_eq_lookupPV (gp : List (String × PVal)) (key : String) (v : PVal)
    (h : getKey gp key = .ok v) : lookupPV gp key = some v := by
  unfold getKey at h
  unfold lookupPV
  cases hf : gp.find? (fun kv => kv.1 == key) with
  | none => rw [hf] at h; cases h
  | some kv =>
    rw [hf] at h
    cases h
    rfl

/-- C6 (counterexample): with Input Low = 5 and Input High = 0 both
present, global-parameter validation succeeds: the zero is falsy, so the
input-pair ordering check is skipped even though Low > High. -/
theorem input_threshold_zero_counterexample :
    parse_global_params
      [("VCC Pin", .pInt 6), ("GND Pin", .pInt 7), ("VCC Voltage", .pStr "5V"),
       ("Output Low", .pInt 1), ("Output High", .pInt 4),
       ("Input Low", .pInt 5), ("Input High", .pInt 0)] = .ok () := by
  decide

/-- C6 (amended): successful global-parameter validation guarantees the
Output Low/High pair is numeric, non-negative and strictly ordered, and
any present truthy input threshold is numeric and non-negative; the
Input Low < Input High ordering, however, is only enforced when both input
values are truthy (non-zero), so a zero input threshold bypasses the
ordering check. -/
theorem threshold_validation (gp : List (String × PVal))
    (h : parse_global_params gp = .ok ()) :
    (∃ ol oh qol qoh,
      lookupPV gp "Output Low" = some ol ∧ lookupPV gp "Output High" = some oh ∧
      pvToQ ol = some qol ∧ pvToQ oh = some qoh ∧
      0 ≤ qol ∧ 0 ≤ qoh ∧ qol < qoh) ∧
    (∀ t, (lookupPV gp "Input Low" = some t ∨ lookupPV gp "Input High" = some t) →
      pvTruthy t = true → ∃ q, pvToQ t = some q ∧ 0 ≤ q) ∧
    (∀ il ih qil qih,
      lookupPV gp "Input Low" = some il → lookupPV gp "Input High" = some ih →
      pvTruthy il = true → pvTruthy ih = true →
      pvToQ il = some qil → pvToQ ih = some qih → qil < qih) := by
  obtain ⟨-, -, hths, hout, hin, -⟩ := parse_global_params_ok gp h
  obtain ⟨hol, hoh, hilth, hihth⟩ := checkThresholds_ok gp hths
  obtain ⟨ol, oh, qol, qoh, h1, h2, h3, h4, h5⟩ := checkOutputOrdering_ok gp hout
  refine ⟨⟨ol, oh, qol, qoh, getKey_eq_lookupPV gp _ ol h1, getKey_eq_lookupPV gp _ oh h2,
    h3, h4,
    threshold_nonneg gp "Output Low" hol ol qol (getKey_eq_lookupPV gp _ ol h1) h3,
    threshold_nonneg gp "Output High" hoh oh qoh (getKey_eq_lookupPV gp _ oh h2) h4,
    h5⟩, ?_, ?_⟩
  · intro t hmem htr
    cases hmem with
    | inl hl => exact checkThreshold_ok gp "Input Low" hilth t hl htr
    | inr hr => exact checkThreshold_ok gp "Input High" hihth t hr htr
  · intro il ih qil qih hil hih htl hth hq1 hq2
    exact checkInputOrdering_ok gp hin il ih qil qih hil hih htl hth hq1 hq2

theorem threshold_validation_witness :
    parse_global_params
      [("VCC Pin", .pInt 6), ("GND Pin", .pInt 7), ("VCC Voltage", .pStr "5V"),
       ("Output Low", .pInt 1), ("Output High", .pInt 4),
       ("Input Low", .pInt 2), ("Input High", .pInt 3)] = .ok () ∧
    (2 : ℚ) < 3 := by
  refine ⟨by decide, ?_⟩
  exact (threshold_validation
    [("VCC Pin", .pInt 6), ("GND Pin", .pInt 7), ("VCC Voltage", .pStr "5V"),
     ("Output Low", .pInt 1), ("Output High", .pInt 4),
     ("Input Low", .pInt 2), ("Input High", .pInt 3)] (by decide)).2.2
    (.pInt 2) (.pInt 3) 2 3 (by decide) (by decide) (by decide) (by decide)
    (by decide) (by decide)

/-- C5 (code bug): with a textual CLK Freq, the code applies the clock
regex to `global_params[param]`, where `param` is the stale "GND Pin" loop
variable, so re.match receives the integer GND pin and Python raises a
TypeError instead of validating the clock text; moreover the VoltageUnit
multipliers are written 10e3 and 10e6, which are 10^4 and 10^7, not the
kilo and mega multipliers of the claim. -/
theorem clk_freq_stale_param_bug :
    parse_global_params
      [("VCC Pin", .pInt 6), ("GND Pin", .pInt 7), ("VCC Voltage", .pStr "5V"),
       ("Output Low", .pInt 1), ("Output High", .pInt 4),
       ("CLK Freq", .pStr "5 k")] = .error .typeErr ∧
    voltageUnit "k" = .ok ((10 : ℚ) ^ 4) ∧
    voltageUnit "M" = .ok ((10 : ℚ) ^ 7) := by
  refine ⟨by decide, ?_, ?_⟩
  · unfold voltageUnit
    norm_num
  · unfold voltageUnit
    norm_num

/-! ## parse_pin_map, parse_tests and the top-level parse of parser.py -/

/-- parse_pin_map of parser.py lines 114-142: each entry's name must be a
string, its value an int, in pin range and distinct from the VCC and GND
pin values; the duplicate-target branch of line 138 only warns and is not
modelled.  (In the program flow the vcc/gnd arguments are already
validated ints, so the Python numeric equality of line 126 coincides with
structural equality.) -/
def parse_pin_map (vcc gnd : PVal) : PinMapRaw → Except Err Unit
  | [] => .ok ()
  | (name, v) :: rest =>
    match name with
    | .pStr _ =>
      match v with
      | .pInt n =>
        match checkPinPV (.pInt n) with
        | .error e => .error e
        | .ok () =>
          if PVal.pInt n = vcc then .error .powerPinConflict
          else if PVal.pInt n = gnd then .error .powerPinConflict
          else parse_pin_map vcc gnd rest
      | _ => .error .typeErr
    | _ => .error .typeErr

/-- TestVector construction of testvector.py __init__: the results buffer
starts as the list of the outputs' value lists and the pass flag starts
False. -/
structure TestVec where
  test_name : String
  inputs : List IOCommand
  outputs : List IOCommand
  results : List (List Val)
  passed : Bool
deriving DecidableEq, Repr

/-- One test's dictionary (Python test), mapping section names to
Inputs/Outputs I/O maps. -/
abbrev TestDef := List (String × List (IOKey × PVal))

/-- Python test["Inputs"] / test["Outputs"] dict access. -/
def getSection (td : TestDef) (key : String) : Except Err (List (IOKey × PVal)) :=
  match td.find? (fun kv => kv.1 == key) with
  | some kv => .ok kv.2
  | none => .error .keyErr

/-- parse_tests of parser.py lines 258-270: each test must declare Inputs
and Outputs; both sections compile through parse_test_io with the input or
output vocabulary respectively, and a TestVector is built per test in
order. -/
def parse_tests (pinMap : Option PinMapRaw) (tt : Option TT) :
    List (String × TestDef) → Except Err (List TestVec)
  | [] => .ok []
  | (test_name, test) :: rest =>
    match check_keys ["Inputs", "Outputs"] (test.map Prod.fst) with
    | .error e => .error e
    | .ok () =>
      match getSection test "Inputs" with
      | .error e => .error e
      | .ok ins =>
        match parse_test_io pinMap tt INPUT_LOGIC ins with
        | .error e => .error e
        | .ok input_cmds =>
          match getSection test "Outputs" with
          | .error e => .error e
          | .ok outs =>
            match parse_test_io pinMap tt OUTPUT_LOGIC outs with
            | .error e => .error e
            | .ok output_cmds =>
              match parse_tests pinMap tt rest with
              | .error e => .error e
              | .ok vecs =>
                .ok (⟨test_name, input_cmds, output_cmds,
                      output_cmds.map (fun c => c.pin_vals), false⟩ :: vecs)

/-- Top-level script document as loaded by the external YAML loader: the
typed optional sections plus any extra key names.  The Chip Info payload
is opaque and returned unparsed. -/
structure Script where
  chipInfo : Option PVal
  globalParams : Option (List (String × PVal))
  pinMap : Option PinMapRaw
  truthTable : Option (List (List (String × String)))
  tests : Option (List (String × TestDef))
  extraKeys : List String

/-- data.keys() of the loaded document. -/
def Script.keys (s : Script) : List String :=
  (if s.chipInfo.isSome then ["Chip Info"] else []) ++
  (if s.globalParams.isSome then ["Global Parameters"] else []) ++
  (if s.pinMap.isSome then ["Pin Map"] else []) ++
  (if s.truthTable.isSome then ["Truth Table"] else []) ++
  (if s.tests.isSome then ["Tests"] else []) ++ s.extraKeys

/-- Python data[section] on an optional section (KeyError when absent). -/
def getOptSection {α : Type} : Option α → Except Err α
  | some a => .ok a
  | none => .error .keyErr

/-- The body of the try block of parse (parser.py lines 83-93): validate
the global parameters, the optional pin map (against the power pins read
back from the validated global parameters), compile the optional truth
table, then compile the tests. -/
def parseInner (data : Script) : Except Err (List TestVec) :=
  match getOptSection data.globalParams with
  | .error e => .error e
  | .ok gp =>
  match parse_global_params gp with
  | .error e => .error e
  | .ok () =>
  match getKey gp "VCC Pin" with
  | .error e => .error e
  | .ok vcc =>
  match getKey gp "GND Pin" with
  | .error e => .error e
  | .ok gnd =>
  match ((match data.pinMap with
          | some pm => parse_pin_map vcc gnd pm
          | none => .ok ()) : Except Err Unit) with
  | .error e => .error e
  | .ok () =>
  match ((match data.truthTable with
          | some rows =>
            (match parse_truth_table rows with
             | .error e => .error e
             | .ok t => .ok (some t))
          | none => .ok none) : Except Err (Option TT)) with
  | .error e => .error e
  | .ok tt =>
  match getOptSection data.tests with
  | .error e => .error e
  | .ok ts => parse_tests data.pinMap tt ts

/-- parse of parser.py lines 68-104: the required-section key check of
line 77 runs OUTSIDE the try block, so its MissingKeys error propagates
unwrapped; every error raised inside the try block is re-raised as the
path-tagged ParseError (the ScriptCompilationError).  On success the chip
info and the compiled test vectors are returned (the class-attribute
updates of lines 101-102 are external state, not part of the result). -/
def parse (data : Script) (file_path : String) :
    Except Err (Option PVal × List TestVec) :=
  match check_keys ["Global Parameters", "Tests"] data.keys with
  | .error e => .error e
  | .ok () =>
    match parseInner data with
    | .error _ => .error (.parseError file_path)
    | .ok vecs => .ok (data.chipInfo, vecs)

/-! ## Claim C9: top-level error wrapping -/

/-- C9 (counterexample): a script missing the required top-level Tests
section fails with the raw MissingKeys error of the pre-try key check, not
with the script-tagged ScriptCompilationError wrapper. -/
theorem missing_section_unwrapped_counterexample :
    parse ⟨none, some [("VCC Pin", .pInt 6)], none, none, none, []⟩ "script.yaml" =
      .error .missingKeys ∧
    Err.missingKeys ≠ Err.parseError "script.yaml" := by
  constructor
  · rfl
  · decide

/-- C9 (amended): when the top-level required-section check passes, every
error raised inside the guarded compilation phase (global parameters, pin
map, truth table, tests) makes the compiler return the ScriptCompilation
error tagged with the script path, producing no test-vector set; and a
successful parse returns exactly the inner phase's compiled vectors.  A
missing required top-level section, however, fails before the guard and
escapes as the raw MissingKeys error. -/
theorem compilation_error_wrapped (data : Script) (path : String)
    (hkeys : check_keys ["Global Parameters", "Tests"] data.keys = .ok ()) :
    (∀ e, parseInner data = .error e → parse data path = .error (.parseError path)) ∧
    (∀ r, parse data path = .ok r →
      ∃ vecs, parseInner data = .ok vecs ∧ r = (data.chipInfo, vecs)) := by
  constructor
  · intro e he
    unfold parse
    simp only [hkeys, he]
  · intro r hr
    unfold parse at hr
    simp only [hkeys] at hr
    cases hi : parseInner data with
    | error e => simp [hi] at hr
    | ok vecs =>
      simp only [hi] at hr
      cases hr
      exact ⟨vecs, rfl, rfl⟩

theorem compilation_error_wrapped_witness :
    parse ⟨none, some [("VCC Pin", .pInt 6), ("GND Pin", .pInt 7),
        ("VCC Voltage", .pStr "9V"), ("Output Low", .pInt 1),
        ("Output High", .pInt 4)], none, none, some [], []⟩ "t.yaml" =
      .error (.parseError "t.yaml") :=
  (compilation_error_wrapped
    ⟨none, some [("VCC Pin", .pInt 6), ("GND Pin", .pInt 7),
        ("VCC Voltage", .pStr "9V"), ("Output Low", .pInt 1),
        ("Output High", .pInt 4)], none, none, some [], []⟩ "t.yaml"
    (by decide)).1 .unsupportedVoltage (by decide)
